import Mathlib

/-!
Verification of the concurrent gRPC load-generation harness
(package main: `CallSimultaneous`, `GetSapphireRound`, `TryNexusParseBlock`,
`RandomSapphireHeight`, `main`).

The Go source is shallowly embedded: remote calls (gRPC dial, GetBlock,
GetTransactionsWithResults, GetEvents) and external library decoders
(`types.Event.UnmarshalRaw`, `cbor.Unmarshal`, `nexusRuntime.ExtractRound`)
are opaque collaborators, modelled as fields of an environment record; the
control flow, field assignments and error handling of the repository's own
functions are translated line by line.  Durations (`time.Duration`) are
modelled as `Nat` nanoseconds; a stage's measured elapsed time on the success
path is supplied by the environment, matching `time.Since(start)`.
A Go panic (nil-pointer dereference) is modelled by the task function
returning `none`.
-/

/-- Embedding of `ApiTimes` (part_000 lines 77-83): one recorded duration per
stage, zero-initialised by `ApiTimes{}`. -/
structure ApiTimes where
  Connect : Nat := 0
  GetBlock : Nat := 0
  GetTransactions : Nat := 0
  GetEvents : Nat := 0
  Parse : Nat := 0
deriving DecidableEq, Repr

/-- Embedding of `ThreadStatus` (part_000 lines 70-75): the per-task result
record sent on the channel.  `err : Option String` models the Go `error`
interface value (`none` = nil). -/
structure ThreadStatus where
  ID : Nat
  err : Option String := none
  msg : String := ""
  times : ApiTimes := {}
deriving DecidableEq, Repr

/-- Embedding of `(*ApiTimes).String()` (part_000 lines 85-88). -/
def ApiTimes.render (t : ApiTimes) : String :=
  "Connect: " ++ toString t.Connect ++ ", GetBlock: " ++ toString t.GetBlock ++
  ", GetTransactions: " ++ toString t.GetTransactions ++ ", GetEvents: " ++
  toString t.GetEvents ++ ", ExtractRound: " ++ toString t.Parse

/-- Embedding of the block header fields read by `TryNexusParseBlock`
(part_000 lines 188-199); hashes and roots are opaque strings, the encoded
hash `block.Header.EncodedHash()` is precomputed as a field. -/
structure BlockHeader where
  version : Nat
  namespaceId : String
  round : Nat
  timestamp : Nat
  encodedHash : String
  previousHash : String
  ioRoot : String
  stateRoot : String
  messagesHash : String
  inMessagesHash : String
deriving DecidableEq, Repr

/-- Embedding of `block.Block` as used by this repository: only the header is
read. -/
structure Block where
  header : BlockHeader
deriving DecidableEq, Repr

/-- Embedding of `nodeapi.RuntimeBlockHeader` as constructed at part_000
lines 188-199. -/
structure RuntimeBlockHeader where
  version : Nat
  namespaceId : String
  round : Nat
  timestamp : Nat
  hash : String
  previousHash : String
  ioRoot : String
  stateRoot : String
  messagesHash : String
  inMessagesHash : String
deriving DecidableEq, Repr

/-- Raw on-wire event (`runtime.Event`): key, value bytes and a tx hash. -/
structure RawEvent where
  key : List Nat
  value : List Nat
  txHash : String
deriving DecidableEq, Repr

/-- Raw transaction with results (`runtime.TransactionWithResults`): cbor
bytes for the transaction and its result, plus its events. -/
structure RawTx where
  tx : List Nat
  result : List Nat
  events : List RawEvent
deriving DecidableEq, Repr

/-- Decoded SDK event (`types.Event` after a successful `UnmarshalRaw`). -/
structure SdkEvent where
  key : List Nat
  value : List Nat
deriving DecidableEq, Repr

/-- Embedding of `nodeapi.RuntimeTransactionWithResults` as filled by the tx
loop of `TryNexusParseBlock` (part_000 lines 200-215). -/
structure RuntimeTransactionWithResults where
  tx : List Nat
  result : List Nat
  events : List SdkEvent
deriving DecidableEq, Repr

/-- Embedding of `nexusRuntime.BlockData`: only the fields read when
formatting the message (part_000 line 182). -/
structure BlockData where
  Header : RuntimeBlockHeader
  NumTransactions : Nat
deriving DecidableEq, Repr

/-- Opaque external decoders used by `TryNexusParseBlock`:
`types.Event.UnmarshalRaw` (third argument is the optional tx hash pointer),
`cbor.Unmarshal` on tx and result bytes (whose error the Go code discards, so
they are total here), and `nexusRuntime.ExtractRound`, which returns a Go
pair `(*BlockData, error)`. -/
structure NexusEnv where
  unmarshalRaw : List Nat → List Nat → Option String → Except String SdkEvent
  cborTx : List Nat → List Nat
  cborResult : List Nat → List Nat
  extractRound : RuntimeBlockHeader → List RuntimeTransactionWithResults →
    List SdkEvent → Option BlockData × Option String

/-- Embedding of the block-event loop of `TryNexusParseBlock` (part_000 lines
218-225): decode events in order, aborting with the wrapped error message on
the first `UnmarshalRaw` failure. -/
def decodeBlockEvents (env : NexusEnv) : List RawEvent → Except String (List SdkEvent)
  | [] => Except.ok []
  | e :: rest =>
    match env.unmarshalRaw e.key e.value (some e.txHash) with
    | Except.error err => Except.error ("failed to unmarshal event: " ++ err)
    | Except.ok ev =>
      match decodeBlockEvents env rest with
      | Except.error err => Except.error err
      | Except.ok evs => Except.ok (ev :: evs)

/-- Embedding of `TryNexusParseBlock` (part_000 lines 187-230).  The header is
copied field by field; each transaction's cbor bytes are decoded with errors
ignored and its events filtered through `UnmarshalRaw` with a nil tx hash
(failures skipped via `continue`); block events abort on the first decode
failure, returning the Go pair `(nil, error)`; otherwise the result of the
external `ExtractRound` is returned unchanged. -/
def TryNexusParseBlock (env : NexusEnv) (blk : Block) (blockTxs : List RawTx)
    (blockEvents : List RawEvent) : Option BlockData × Option String :=
  let header : RuntimeBlockHeader :=
    { version := blk.header.version
      namespaceId := blk.header.namespaceId
      round := blk.header.round
      timestamp := blk.header.timestamp
      hash := blk.header.encodedHash
      previousHash := blk.header.previousHash
      ioRoot := blk.header.ioRoot
      stateRoot := blk.header.stateRoot
      messagesHash := blk.header.messagesHash
      inMessagesHash := blk.header.inMessagesHash }
  let txs : List RuntimeTransactionWithResults :=
    blockTxs.map (fun tx =>
      { tx := env.cborTx tx.tx
        result := env.cborResult tx.result
        events := tx.events.filterMap
          (fun e => (env.unmarshalRaw e.key e.value none).toOption) })
  match decodeBlockEvents env blockEvents with
  | Except.error msg => (none, some msg)
  | Except.ok events => env.extractRound header txs events

/-- Embedding of the message formatting at part_000 line 182:
`fmt.Sprintf("Round: %d, NumTransactions: %d, Hash: %s", ...)`. -/
def formatBlockMsg (bd : BlockData) : String :=
  "Round: " ++ toString bd.Header.round ++ ", NumTransactions: " ++
  toString bd.NumTransactions ++ ", Hash: " ++ bd.Header.hash

/-- Opaque remote collaborators of one task of `GetSapphireRound`: the outcome
of each gRPC stage (an `error` result covers both remote failure and context
deadline expiry) and, for a successful stage, its measured elapsed time.  The
Go code records a stage's `time.Since(start)` only after the stage's error
check, so a failed stage's field keeps its zero value. -/
structure GrpcEnv where
  dial : Except String Unit
  connectElapsed : Nat
  getBlock : Except String Block
  getBlockElapsed : Nat
  getTransactions : Except String (List RawTx)
  getTransactionsElapsed : Nat
  getEvents : Except String (List RawEvent)
  getEventsElapsed : Nat
  parseElapsed : Nat
  nexus : NexusEnv

/-- Embedding of `GetSapphireRound` (part_000 lines 132-185).  Control flow is
translated branch by branch: dial failure and GetBlock failure set
`status.err`; the GetTransactions and GetEvents failure branches return
`status` without assigning the error (exactly as lines 164-166 and 175-177
do); the decode stage ignores the error returned by `TryNexusParseBlock` and
unconditionally dereferences the returned pointer, so a `nil` first component
is a nil-pointer dereference, modelled as `none` (panic: no `ThreadStatus` is
ever produced). -/
def GetSapphireRound (env : GrpcEnv) (height : Nat) : Option ThreadStatus :=
  let status0 : ThreadStatus := { ID := height, times := {} }
  match env.dial with
  | Except.error e => some { status0 with err := some e }
  | Except.ok _ =>
    let status1 := { status0 with times.Connect := env.connectElapsed }
    match env.getBlock with
    | Except.error e => some { status1 with err := some e }
    | Except.ok blk =>
      let status2 := { status1 with times.GetBlock := env.getBlockElapsed }
      match env.getTransactions with
      | Except.error _ => some status2
      | Except.ok txs =>
        let status3 :=
          { status2 with times.GetTransactions := env.getTransactionsElapsed }
        match env.getEvents with
        | Except.error _ => some status3
        | Except.ok events =>
          let status4 := { status3 with times.GetEvents := env.getEventsElapsed }
          match TryNexusParseBlock env.nexus blk txs events with
          | (none, _) => none
          | (some bd, _) =>
            some { status4 with
                     msg := formatBlockMsg bd
                     times.Parse := env.parseElapsed }

/-- Embedding of `RandomSapphireHeight` (part_000 lines 128-130) applied to
the value `u` drawn from `rand.Uint64()`: `500_000 + (u % 400_000)` in uint64
arithmetic. -/
def RandomSapphireHeight (u : Nat) : Nat :=
  (500000 + u % 400000) % 2 ^ 64

/-- Diagnostic line printed for a failed task (part_000 line 121):
`fmt.Printf("thread %d: %s\n", status.ID, status.err)`. -/
def threadErrLine (s : ThreadStatus) : String :=
  "thread " ++ toString s.ID ++ ": " ++ (s.err.getD "")

/-- Embedding of the aggregation loop of `CallSimultaneous` (part_000 lines
113-125): for each received status, print its timing line and its message;
when its error is non-nil, print the thread error line and increment
`num_errors`.  The statuses received from the channel are given as a list in
receive order; the result is the printed lines paired with the final
`num_errors`. -/
def aggregateLoop : List ThreadStatus → List String × Nat
  | [] => ([], 0)
  | status :: rest =>
    let acc := aggregateLoop rest
    if status.err.isSome then
      (status.times.render :: status.msg :: threadErrLine status :: acc.1,
       acc.2 + 1)
    else
      (status.times.render :: status.msg :: acc.1, acc.2)

/-- Embedding of the reporting epilogue of `main` (part_000 lines 56-67): run
the aggregation loop over the received statuses, then print the three summary
lines.  `main` neither calls `os.Exit` nor panics on task failures, so the
process exit status is 0 on every input; the pair returned is
(exit status, printed lines). -/
def mainRun (numRequests : Nat) (received : List ThreadStatus)
    (totalTime : Nat) : Nat × List String :=
  let acc := aggregateLoop received
  (0,
   acc.1 ++
     ["Total time: " ++ toString totalTime,
      "Errors: " ++ toString acc.2 ++ " / " ++ toString numRequests,
      "Rate: " ++ toString numRequests ++ "/" ++ toString totalTime])

/-- Elapsed wall-clock time after `i` iterations of the launch loop of
`CallSimultaneous` (part_000 lines 99-108).  Each iteration performs its
launch work (context setup, `wg.Add`, `go`), taking some nonnegative overhead
`ov j`, and then sleeps `DELAY` (`d`) before the next iteration. -/
def launchLoopTime (d : Nat) (ov : Nat → Nat) : Nat → Nat
  | 0 => 0
  | i + 1 => launchLoopTime d ov i + ov i + d

/-- Capacity of the result channel created at part_000 line 96:
`make(chan ThreadStatus, NUM_REQUESTS)`. -/
def channelCapacity (numRequests : Nat) : Nat := numRequests

/-- Phase of the main goroutine of `CallSimultaneous`: launching tasks (lines
99-108), blocked in `wg.Wait()` (line 111), or draining the channel (lines
114-124). -/
inductive Phase where
  | launching
  | waiting
  | aggregating
deriving DecidableEq, Repr

/-- Abstract state of one run of `CallSimultaneous` with `n = NUM_REQUESTS`
tasks.  `launched` counts started goroutines; `notSent` counts goroutines
that have not yet sent their result on the channel; `sentNotDone` counts
goroutines that have sent but not yet run `wg.Done()` (the `defer` fires
after the send and `cancel()`); `chBuf` is the number of results buffered in
the channel; `received` is the number of results the aggregation loop has
taken from the channel. -/
structure SchedState where
  launched : Nat
  notSent : Nat
  sentNotDone : Nat
  chBuf : Nat
  received : Nat
  phase : Phase
deriving DecidableEq, Repr

/-- Initial state of `CallSimultaneous`: nothing launched, empty channel. -/
def initState : SchedState :=
  { launched := 0, notSent := 0, sentNotDone := 0, chBuf := 0, received := 0,
    phase := Phase.launching }

/-- Interleaving semantics of `CallSimultaneous` for `n` tasks.  The main
goroutine launches `n` goroutines in order (each `wg.Add(1)` plus `go`),
then blocks in `wg.Wait()` until the WaitGroup counter
(`notSent + sentNotDone`) is zero, then performs exactly `n` channel
receives.  Each task goroutine sends its result on the buffered channel — a
send on a channel of capacity `channelCapacity n` can fire only while the
buffer holds fewer than `channelCapacity n` items — and afterwards runs its
deferred `wg.Done()`. -/
inductive SchedStep (n : Nat) : SchedState → SchedState → Prop where
  | launch (s : SchedState) (hp : s.phase = Phase.launching)
      (hl : s.launched < n) :
      SchedStep n s { s with launched := s.launched + 1,
                             notSent := s.notSent + 1 }
  | finishLaunch (s : SchedState) (hp : s.phase = Phase.launching)
      (hl : s.launched = n) :
      SchedStep n s { s with phase := Phase.waiting }
  | send (s : SchedState) (ht : 0 < s.notSent)
      (hc : s.chBuf < channelCapacity n) :
      SchedStep n s { s with notSent := s.notSent - 1,
                             sentNotDone := s.sentNotDone + 1,
                             chBuf := s.chBuf + 1 }
  | taskDone (s : SchedState) (ht : 0 < s.sentNotDone) :
      SchedStep n s { s with sentNotDone := s.sentNotDone - 1 }
  | waitReturn (s : SchedState) (hp : s.phase = Phase.waiting)
      (h1 : s.notSent = 0) (h2 : s.sentNotDone = 0) :
      SchedStep n s { s with phase := Phase.aggregating }
  | receive (s : SchedState) (hp : s.phase = Phase.aggregating)
      (hr : s.received < n) (hc : 0 < s.chBuf) :
      SchedStep n s { s with chBuf := s.chBuf - 1,
                             received := s.received + 1 }

/-- States of `CallSimultaneous` reachable from the initial state. -/
inductive Reachable (n : Nat) : SchedState → Prop where
  | start : Reachable n initState
  | step {s t : SchedState} : Reachable n s → SchedStep n s t → Reachable n t

/-- A state in which no step of `CallSimultaneous` is enabled: the run is
over. -/
def Terminal (n : Nat) (s : SchedState) : Prop :=
  ∀ t : SchedState, ¬ SchedStep n s t

/-- Inductive invariant of the `CallSimultaneous` transition system. -/
def SchedInv (n : Nat) (s : SchedState) : Prop :=
  s.launched ≤ n ∧
  s.notSent + s.chBuf + s.received = s.launched ∧
  s.received ≤ n ∧
  (s.phase ≠ Phase.launching → s.launched = n) ∧
  (s.phase = Phase.aggregating → s.notSent = 0 ∧ s.sentNotDone = 0) ∧
  (s.phase ≠ Phase.aggregating → s.received = 0)

lemma schedInv_init (n : Nat) : SchedInv n initState := by
  simp [SchedInv, initState]

lemma schedInv_step {n : Nat} {s t : SchedState} (hs : SchedInv n s)
    (hstep : SchedStep n s t) : SchedInv n t := by
  obtain ⟨h1, h2, h3, h4, h5, h6⟩ := hs
  cases hstep with
  | launch hp hl =>
    refine ⟨?_, ?_, ?_, ?_, ?_, ?_⟩ <;> simp_all <;> omega
  | finishLaunch hp hl =>
    refine ⟨?_, ?_, ?_, ?_, ?_, ?_⟩ <;> simp_all
  | send ht hc =>
    refine ⟨h1, ?_, h3, h4, ?_, h6⟩
    · dsimp; omega
    · intro hag
      rcases h5 hag with ⟨ha, hb⟩
      omega
  | taskDone ht =>
    refine ⟨h1, h2, h3, h4, ?_, h6⟩
    intro hag
    rcases h5 hag with ⟨ha, hb⟩
    omega
  | waitReturn hp hns hsd =>
    refine ⟨h1, h2, h3, ?_, ?_, ?_⟩ <;> simp_all
  | receive hp hr hc =>
    refine ⟨h1, ?_, ?_, ?_, ?_, ?_⟩ <;> simp_all <;> omega

lemma schedInv_reachable {n : Nat} {s : SchedState} (h : Reachable n s) :
    SchedInv n s := by
  induction h with
  | start => exact schedInv_init n
  | step _ hstep ih => exact schedInv_step ih hstep

lemma chBuf_lt_cap_of_notSent {n : Nat} {s : SchedState} (h : Reachable n s)
    (hns : 0 < s.notSent) : s.chBuf < channelCapacity n := by
  obtain ⟨h1, h2, _, _, _, _⟩ := schedInv_reachable h
  simp only [channelCapacity]
  omega

/-- Concrete one-task run of `CallSimultaneous`, state by state: after the
launch of task 0. -/
def schedA : SchedState :=
  { launched := 1, notSent := 1, sentNotDone := 0, chBuf := 0, received := 0,
    phase := Phase.launching }

/-- One-task run: the launch loop is over, the main goroutine is in
`wg.Wait()`. -/
def schedB : SchedState :=
  { schedA with phase := Phase.waiting }

/-- One-task run: task 0 has sent its result on the channel. -/
def schedC : SchedState :=
  { launched := 1, notSent := 0, sentNotDone := 1, chBuf := 1, received := 0,
    phase := Phase.waiting }

/-- One-task run: task 0 has run its deferred `wg.Done()`. -/
def schedD : SchedState :=
  { schedC with sentNotDone := 0 }

/-- One-task run: `wg.Wait()` has returned, aggregation begins. -/
def schedE : SchedState :=
  { schedD with phase := Phase.aggregating }

/-- One-task run: the single result has been received; the run is over. -/
def schedF : SchedState :=
  { schedE with chBuf := 0, received := 1 }

lemma reachable_schedA : Reachable 1 schedA :=
  Reachable.step Reachable.start (SchedStep.launch initState rfl (by decide))

lemma reachable_schedB : Reachable 1 schedB :=
  Reachable.step reachable_schedA (SchedStep.finishLaunch schedA rfl rfl)

lemma reachable_schedC : Reachable 1 schedC :=
  Reachable.step reachable_schedB (SchedStep.send schedB (by decide) (by decide))

lemma reachable_schedD : Reachable 1 schedD :=
  Reachable.step reachable_schedC (SchedStep.taskDone schedC (by decide))

lemma reachable_schedE : Reachable 1 schedE :=
  Reachable.step reachable_schedD (SchedStep.waitReturn schedD rfl rfl rfl)

lemma reachable_schedF : Reachable 1 schedF :=
  Reachable.step reachable_schedE (SchedStep.receive schedE rfl (by decide) (by decide))

lemma terminal_schedF : Terminal 1 schedF := by
  intro t hstep
  cases hstep <;> simp_all [schedF, schedE, schedD, schedC]

/-- C3: in every completed run of `CallSimultaneous` with `n = NUM_REQUESTS`
tasks (a reachable state where no step remains), all `n` launched tasks have
sent their result on the channel (`launched - notSent = n` results produced)
and the aggregation loop has received exactly `n` of them, whatever mix of
per-task success and failure the results carry. -/
theorem callSimultaneous_exactly_n {n : Nat} {s : SchedState}
    (hreach : Reachable n s) (hterm : Terminal n s) :
    s.launched = n ∧ s.launched - s.notSent = n ∧ s.received = n := by
  obtain ⟨h1, h2, h3, h4, h5, h6⟩ := schedInv_reachable hreach
  cases hph : s.phase with
  | launching =>
    rcases Nat.lt_or_ge s.launched n with hl | hl
    · exact absurd (SchedStep.launch s hph hl) (hterm _)
    · exact absurd (SchedStep.finishLaunch s hph (le_antisymm h1 hl)) (hterm _)
  | waiting =>
    have hns : s.notSent = 0 := by
      by_contra hne
      have hpos : 0 < s.notSent := Nat.pos_of_ne_zero hne
      exact absurd (SchedStep.send s hpos (chBuf_lt_cap_of_notSent hreach hpos))
        (hterm _)
    have hsd : s.sentNotDone = 0 := by
      by_contra hne
      exact absurd (SchedStep.taskDone s (Nat.pos_of_ne_zero hne)) (hterm _)
    exact absurd (SchedStep.waitReturn s hph hns hsd) (hterm _)
  | aggregating =>
    have hln : s.launched = n := h4 (by simp [hph])
    rcases h5 hph with ⟨hns, hsd⟩
    have hcb : s.chBuf = 0 := by
      by_contra hne
      have hpos : 0 < s.chBuf := Nat.pos_of_ne_zero hne
      exact absurd (SchedStep.receive s hph (by omega) hpos) (hterm _)
    exact ⟨hln, by omega, by omega⟩

theorem callSimultaneous_exactly_n_witness :
    schedF.launched = 1 ∧ schedF.launched - schedF.notSent = 1 ∧
      schedF.received = 1 :=
  callSimultaneous_exactly_n reachable_schedF terminal_schedF

/-- C6: whenever the main goroutine of `CallSimultaneous` has entered the
aggregation loop (phase `aggregating`, reached only through `wg.Wait()`
returning), every one of the `n` tasks has been launched, has sent its
result, and has completed its deferred `wg.Done()`: no task outlives the
run's aggregation point. -/
theorem callSimultaneous_joins_before_aggregation {n : Nat} {s : SchedState}
    (hreach : Reachable n s) (hphase : s.phase = Phase.aggregating) :
    s.launched = n ∧ s.notSent = 0 ∧ s.sentNotDone = 0 := by
  obtain ⟨h1, h2, h3, h4, h5, h6⟩ := schedInv_reachable hreach
  rcases h5 hphase with ⟨hns, hsd⟩
  exact ⟨h4 (by simp [hphase]), hns, hsd⟩

theorem callSimultaneous_joins_witness :
    schedE.launched = 1 ∧ schedE.notSent = 0 ∧ schedE.sentNotDone = 0 :=
  callSimultaneous_joins_before_aggregation reachable_schedE rfl

/-- C7: the result channel is created with capacity `NUM_REQUESTS`
(`channelCapacity n = n`, so capacity is at least the concurrency), and in
every reachable state of the run in which some task still has its result to
send, the channel buffer holds strictly fewer than `channelCapacity n`
items: a completing task's send is always enabled and never blocks on the
aggregator, even though no receive happens before `wg.Wait()` returns. -/
theorem send_never_blocks {n : Nat} {s : SchedState}
    (hreach : Reachable n s) (hns : 0 < s.notSent) :
    n ≤ channelCapacity n ∧ s.chBuf < channelCapacity n :=
  ⟨le_refl n, chBuf_lt_cap_of_notSent hreach hns⟩

theorem send_never_blocks_witness :
    1 ≤ channelCapacity 1 ∧ schedA.chBuf < channelCapacity 1 :=
  send_never_blocks reachable_schedA (by decide)

lemma launchLoopTime_ge (d : Nat) (ov : Nat → Nat) (n : Nat) :
    n * d ≤ launchLoopTime d ov n := by
  induction n with
  | zero => simp [launchLoopTime]
  | succ k ih =>
    have h1 : launchLoopTime d ov (k + 1) = launchLoopTime d ov k + ov k + d := rfl
    have h2 : (k + 1) * d = k * d + d := Nat.succ_mul k d
    omega

/-- C8: the launch loop of `CallSimultaneous` is strictly sequential — each
iteration launches its task and then sleeps `DELAY`, so the start of
iteration `i + 1` is at least `d` after the start of iteration `i`, for any
per-iteration launch overhead `ov` — and the total wall-clock time of the
launch loop for `n` tasks is at least `(n - 1) * d` (indeed at least
`n * d`). -/
theorem launch_pacing (d n : Nat) (ov : Nat → Nat) :
    (∀ i : Nat, launchLoopTime d ov i + d ≤ launchLoopTime d ov (i + 1)) ∧
    (n - 1) * d ≤ n * d ∧ n * d ≤ launchLoopTime d ov n := by
  refine ⟨fun i => ?_, Nat.mul_le_mul_right d (Nat.sub_le n 1),
    launchLoopTime_ge d ov n⟩
  have : launchLoopTime d ov (i + 1) = launchLoopTime d ov i + ov i + d := rfl
  omega

/-- C10: `RandomSapphireHeight` is total with no error condition; for every
drawn random value `u` it returns exactly `500000 + (u % 400000)` — the
uint64 reduction is the identity here — and that value lies in the closed
interval from `500000` to `900000`. -/
theorem randomSapphireHeight_bounds (u : Nat) :
    RandomSapphireHeight u = 500000 + u % 400000 ∧
    500000 ≤ RandomSapphireHeight u ∧ RandomSapphireHeight u ≤ 900000 := by
  have hlt : u % 400000 < 400000 := Nat.mod_lt _ (by decide)
  have heq : RandomSapphireHeight u = 500000 + u % 400000 := by
    unfold RandomSapphireHeight
    exact Nat.mod_eq_of_lt (by omega)
  exact ⟨heq, by omega, by omega⟩

/-- C5: the value `num_errors` returned by the aggregation loop of
`CallSimultaneous` equals the number of received statuses whose error field
is non-nil, for every list of received statuses. -/
theorem aggregateLoop_error_count (received : List ThreadStatus) :
    (aggregateLoop received).2 = received.countP (fun s => s.err.isSome) := by
  induction received with
  | nil => rfl
  | cons s rest ih =>
    by_cases h : s.err.isSome <;>
      simp [aggregateLoop, h, ih, List.countP_cons]

lemma errLine_mem_aggregateLoop (s : ThreadStatus) (herr : s.err.isSome) :
    ∀ received : List ThreadStatus, s ∈ received →
      threadErrLine s ∈ (aggregateLoop received).1 := by
  intro received
  induction received with
  | nil => intro h; cases h
  | cons a rest ih =>
    intro hmem
    rcases List.mem_cons.mp hmem with h | h
    · subst h
      simp [aggregateLoop, herr]
    · by_cases ha : a.err.isSome <;> simp [aggregateLoop, ha, ih h]

/-- C9: `main` always finishes with exit status 0, whatever statuses the
tasks returned; each failed task is reported only through its printed
`thread ...` line (and through the final error count line), never through a
distinct exit code. -/
theorem mainRun_exits_successfully (numRequests totalTime : Nat)
    (received : List ThreadStatus) :
    (mainRun numRequests received totalTime).1 = 0 ∧
    ∀ s ∈ received, s.err.isSome →
      threadErrLine s ∈ (mainRun numRequests received totalTime).2 := by
  refine ⟨rfl, fun s hmem herr => ?_⟩
  exact List.mem_append_left _ (errLine_mem_aggregateLoop s herr received hmem)

/-- Concrete failed status used to instantiate the reporting theorems. -/
def failedStatus : ThreadStatus := { ID := 5, err := some "boom" }

theorem mainRun_exits_successfully_witness :
    (mainRun 1 [failedStatus] 10).1 = 0 ∧
    threadErrLine failedStatus ∈ (mainRun 1 [failedStatus] 10).2 := by
  have h := mainRun_exits_successfully 1 10 [failedStatus]
  exact ⟨h.1, h.2 failedStatus (List.mem_singleton.mpr rfl) rfl⟩

/-- Concrete block used by the concrete pipeline runs. -/
def blk0 : Block :=
  { header :=
      { version := 1, namespaceId := "sapphire", round := 700123,
        timestamp := 1700000000, encodedHash := "deadbeef",
        previousHash := "prev", ioRoot := "io", stateRoot := "state",
        messagesHash := "mh", inMessagesHash := "imh" } }

/-- Concrete raw block event. -/
def ev0 : RawEvent := { key := [1], value := [2], txHash := "txh" }

/-- Nexus environment whose external decoders all succeed. -/
def nexusOkEnv : NexusEnv :=
  { unmarshalRaw := fun k v _ => Except.ok { key := k, value := v }
    cborTx := fun b => b
    cborResult := fun b => b
    extractRound := fun h txs _ =>
      (some { Header := h, NumTransactions := txs.length }, none) }

/-- Nexus environment whose `UnmarshalRaw` rejects every event: any non-empty
block event list makes the decode step fail. -/
def nexusBadEnv : NexusEnv :=
  { nexusOkEnv with unmarshalRaw := fun _ _ _ => Except.error "bad key" }

/-- Environment of a task in which every stage succeeds. -/
def envAllOk : GrpcEnv :=
  { dial := Except.ok (), connectElapsed := 11
    getBlock := Except.ok blk0, getBlockElapsed := 12
    getTransactions := Except.ok [], getTransactionsElapsed := 13
    getEvents := Except.ok [], getEventsElapsed := 14
    parseElapsed := 15, nexus := nexusOkEnv }

/-- Environment of a task whose first failing stage is
GetTransactionsWithResults. -/
def envTxFail : GrpcEnv :=
  { envAllOk with getTransactions := Except.error "rpc unavailable" }

/-- Environment of a task whose first failing stage is GetEvents. -/
def envEventsFail : GrpcEnv :=
  { envAllOk with getEvents := Except.error "rpc unavailable" }

/-- Environment of a task whose remote stages all succeed but whose decode
stage fails on the single block event. -/
def envDecodeFail : GrpcEnv :=
  { envAllOk with getEvents := Except.ok [ev0], nexus := nexusBadEnv }

/-- C1 (bug witness): when GetTransactionsWithResults is the first failing
stage — and likewise GetEvents — `GetSapphireRound` returns a status whose
error is nil and whose message is empty, because the failure branches at
part_000 lines 164-166 and 175-177 return `status` without assigning
`status.err`; so the property that the error field is non-nil whenever some
stage failed does not hold of the code. -/
theorem getSapphireRound_drops_stage_error :
    GetSapphireRound envTxFail 42 =
      some { ID := 42, err := none, msg := "",
             times := { Connect := 11, GetBlock := 12, GetTransactions := 0,
                        GetEvents := 0, Parse := 0 } } ∧
    GetSapphireRound envEventsFail 42 =
      some { ID := 42, err := none, msg := "",
             times := { Connect := 11, GetBlock := 12, GetTransactions := 13,
                        GetEvents := 0, Parse := 0 } } :=
  ⟨rfl, rfl⟩

/-- C2 (counterexample): in the run `envTxFail` the first failing stage is
GetTransactions, yet the returned status records a zero duration for that
very stage — the code assigns `times.GetTransactions` only after the error
check — and carries a nil error, refuting at this concrete input both the
"populated up to and including stage i" part and the "non-empty error" part
of the claim. -/
theorem failing_stage_timing_counterexample :
    envTxFail.getTransactions = Except.error "rpc unavailable" ∧
    envTxFail.dial = Except.ok () ∧ envTxFail.getBlock = Except.ok blk0 ∧
    (GetSapphireRound envTxFail 42).map (fun s => s.times.GetTransactions) =
      some 0 ∧
    (GetSapphireRound envTxFail 42).map ThreadStatus.err = some none :=
  ⟨rfl, rfl, rfl, rfl, rfl⟩

/-- C2 (amended): when stage `i` is the first stage of `GetSapphireRound` to
fail, the returned status has the measured durations for every stage strictly
before `i`, zero durations for stage `i` and every later stage, an empty
message, and an error that is non-nil exactly when `i` is the connect or
GetBlock stage (the GetTransactions and GetEvents failure branches drop the
error). -/
theorem getSapphireRound_failure_shape (env : GrpcEnv) (height : Nat) :
    (∀ e, env.dial = Except.error e →
      GetSapphireRound env height =
        some { ID := height, err := some e, msg := "", times := {} }) ∧
    (∀ e, env.dial = Except.ok () → env.getBlock = Except.error e →
      GetSapphireRound env height =
        some { ID := height, err := some e, msg := "",
               times := { Connect := env.connectElapsed } }) ∧
    (∀ blk e, env.dial = Except.ok () → env.getBlock = Except.ok blk →
      env.getTransactions = Except.error e →
      GetSapphireRound env height =
        some { ID := height, err := none, msg := "",
               times := { Connect := env.connectElapsed,
                          GetBlock := env.getBlockElapsed } }) ∧
    (∀ blk txs e, env.dial = Except.ok () → env.getBlock = Except.ok blk →
      env.getTransactions = Except.ok txs → env.getEvents = Except.error e →
      GetSapphireRound env height =
        some { ID := height, err := none, msg := "",
               times := { Connect := env.connectElapsed,
                          GetBlock := env.getBlockElapsed,
                          GetTransactions := env.getTransactionsElapsed } }) := by
  refine ⟨?_, ?_, ?_, ?_⟩
  · intro e h1
    unfold GetSapphireRound
    rw [h1]
  · intro e h1 h2
    unfold GetSapphireRound
    rw [h1, h2]
  · intro blk e h1 h2 h3
    unfold GetSapphireRound
    rw [h1, h2, h3]
  · intro blk txs e h1 h2 h3 h4
    unfold GetSapphireRound
    rw [h1, h2, h3, h4]

theorem getSapphireRound_failure_shape_witness :
    GetSapphireRound envTxFail 42 =
      some { ID := 42, err := none, msg := "",
             times := { Connect := 11, GetBlock := 12 } } := by
  have h := getSapphireRound_failure_shape envTxFail 42
  exact h.2.2.1 blk0 "rpc unavailable" rfl rfl rfl

/-- C4: on the concrete input `envDecodeFail`, the decode step fails —
`TryNexusParseBlock` returns the Go pair `(nil, error)` because the block
event fails to unmarshal — and `GetSapphireRound` ignores the returned error
and dereferences the nil `BlockData` while formatting the message, so the
task panics (modelled as `none`) instead of returning a status carrying the
decode error. -/
theorem decode_failure_panics :
    (TryNexusParseBlock nexusBadEnv blk0 [] [ev0]).1 = none ∧
    (TryNexusParseBlock nexusBadEnv blk0 [] [ev0]).2 =
      some "failed to unmarshal event: bad key" ∧
    GetSapphireRound envDecodeFail 42 = none :=
  ⟨rfl, rfl, rfl⟩
